import Mathlib

/-!
Shallow embedding of `pehashng.py` (AnyMaster/pehashng), a structural hash of
PE executables, together with theorems checking the natural-language
specification against the code.

Bytes are modelled as `Nat` values (always `< 256` when produced by packing),
byte strings as `List Nat`.  Python's unbounded integers are modelled as `Nat`
(all values handled by the program are non-negative).  The bzip2 compressor
(`bz2.compress`) is external to the repository and is modelled as an abstract
parameter `compressLen : List Nat → Nat` giving the length of the compressed
byte string; every theorem quantifies over it.  The floating-point expression
`len * 7.0 / size` is modelled in exact rational arithmetic `ℚ`, and Python 2's
`round` (round-half-away-from-zero; the ratio is never negative) by Mathlib's
`round` on `ℚ`, which is `⌊x + 1/2⌋`.
-/

/-! ## Byte packing: `struct.pack` with big-endian fixed-width formats -/

/-- `packBE w v` embeds `struct.pack` with formats `> B` (w = 1), `> H` (w = 2),
`> I` (w = 4), `> Q` (w = 8): `w` bytes, big-endian.  Values are reduced
modulo `2^(8*w)` (the Python call would raise `struct.error` on out-of-range
values; every value packed by the program fits its width for well-formed PE
inputs). -/
def packBE (w v : Nat) : List Nat :=
  (List.range w).reverse.map (fun i => (v >>> (8 * i)) % 256)

/-! ## SHA-256 (`hashlib.sha256`), embedded on byte lists -/

/-- Truncate to a 32-bit word. -/
def w32 (x : Nat) : Nat := x % 4294967296

/-- Rotate a 32-bit word right by `n` (0 ≤ n < 32). -/
def rotr (n x : Nat) : Nat := w32 ((x >>> n) ||| (x <<< (32 - n)))

/-- SHA-256 round constants. -/
def shaK : List Nat :=
  [1116352408, 1899447441, 3049323471, 3921009573, 961987163,
   1508970993, 2453635748, 2870763221, 3624381080, 310598401,
   607225278, 1426881987, 1925078388, 2162078206, 2614888103,
   3248222580, 3835390401, 4022224774, 264347078, 604807628,
   770255983, 1249150122, 1555081692, 1996064986, 2554220882,
   2821834349, 2952996808, 3210313671, 3336571891, 3584528711,
   113926993, 338241895, 666307205, 773529912, 1294757372,
   1396182291, 1695183700, 1986661051, 2177026350, 2456956037,
   2730485921, 2820302411, 3259730800, 3345764771, 3516065817,
   3600352804, 4094571909, 275423344, 430227734, 506948616,
   659060556, 883997877, 958139571, 1322822218, 1537002063,
   1747873779, 1955562222, 2024104815, 2227730452, 2361852424,
   2428436474, 2756734187, 3204031479, 3329325298]

/-- SHA-256 initial hash state. -/
def shaH0 : List Nat :=
  [1779033703, 3144134277, 1013904242, 2773480762,
   1359893119, 2600822924, 528734635, 1541459225]

def bigSigma0 (x : Nat) : Nat := rotr 2 x ^^^ rotr 13 x ^^^ rotr 22 x

def bigSigma1 (x : Nat) : Nat := rotr 6 x ^^^ rotr 11 x ^^^ rotr 25 x

def smallSigma0 (x : Nat) : Nat := rotr 7 x ^^^ rotr 18 x ^^^ (x >>> 3)

def smallSigma1 (x : Nat) : Nat := rotr 17 x ^^^ rotr 19 x ^^^ (x >>> 10)

def chF (x y z : Nat) : Nat := (x &&& y) ^^^ ((x ^^^ 0xFFFFFFFF) &&& z)

def majF (x y z : Nat) : Nat := (x &&& y) ^^^ (x &&& z) ^^^ (y &&& z)

/-- Group a byte list into 32-bit big-endian words. -/
def toWords : List Nat → List Nat
  | b0 :: b1 :: b2 :: b3 :: rest =>
      (((b0 * 256 + b1) * 256 + b2) * 256 + b3) :: toWords rest
  | _ => []

/-- Extend the 16-word message schedule by `k` further words. -/
def buildSched : Nat → List Nat → List Nat
  | 0, ws => ws
  | k + 1, ws =>
      let t := ws.length
      buildSched k (ws ++ [w32 (smallSigma1 (ws.getD (t - 2) 0) + ws.getD (t - 7) 0 +
        smallSigma0 (ws.getD (t - 15) 0) + ws.getD (t - 16) 0)])

/-- One SHA-256 round on the 8-word working state. -/
def roundStep (kt wt : Nat) : List Nat → List Nat
  | [a, b, c, d, e, f, g, h] =>
      let t1 := w32 (h + bigSigma1 e + chF e f g + kt + wt)
      let t2 := w32 (bigSigma0 a + majF a b c)
      [w32 (t1 + t2), a, b, c, w32 (d + t1), e, f, g]
  | st => st

/-- Compress one 64-byte block into the hash state. -/
def compressBlock (hst block : List Nat) : List Nat :=
  let ws := buildSched 48 (toWords block)
  let fin := (List.zip shaK ws).foldl (fun st kw => roundStep kw.1 kw.2 st) hst
  (List.zip hst fin).map (fun p => w32 (p.1 + p.2))

/-- SHA-256 padding: `0x80`, zeros to 56 mod 64, then the bit length as
64-bit big-endian. -/
def sha256pad (msg : List Nat) : List Nat :=
  msg ++ [128] ++ List.replicate ((119 - msg.length % 64) % 64) 0 ++
    packBE 8 (8 * msg.length)

/-- Split a byte list into 64-byte chunks (fuel-structured for kernel
reducibility). -/
def chunks64Fuel : Nat → List Nat → List (List Nat)
  | 0, _ => []
  | _ + 1, [] => []
  | fuel + 1, l => l.take 64 :: chunks64Fuel fuel (l.drop 64)

def chunks64 (l : List Nat) : List (List Nat) := chunks64Fuel l.length l

/-- SHA-256 digest of a byte list, as 32 bytes. -/
def sha256bytes (msg : List Nat) : List Nat :=
  (((chunks64 (sha256pad msg)).foldl compressBlock shaH0).map (packBE 4)).flatten

/-- Lowercase hexadecimal digit. -/
def hexDigit (n : Nat) : Char :=
  if n < 10 then Char.ofNat (48 + n) else Char.ofNat (87 + n)

/-- `hashlib.sha256(s).hexdigest()`: lowercase hexadecimal SHA-256 digest. -/
def sha256hex (msg : List Nat) : String :=
  String.mk (((sha256bytes msg).map (fun b => [hexDigit (b / 16), hexDigit (b % 16)])).flatten)

/-! ## Alignment utilities (`align_down_p2`, `align_up`) -/

/-- Python's `int.bit_length()` on non-negative integers. -/
def bit_length (n : Nat) : Nat := if n = 0 then 0 else Nat.log2 n + 1

/-- `align_down_p2(number)`: `1 << (number.bit_length() - 1) if number else 0`. -/
def align_down_p2 (number : Nat) : Nat :=
  if number ≠ 0 then 1 <<< (bit_length number - 1) else 0

/-- Python's `x & ~m` for non-negative unbounded integers `x`, `m`: the bits of
`x` outside `m`, i.e. `x - (x &&& m)`. -/
def pyAndNot (x m : Nat) : Nat := x - (x &&& m)

/-- `align_up(number, boundary_p2)`: after `boundary_p2 -= 1`, returns
`(number + boundary_p2) & ~boundary_p2`.  The source asserts
`boundary_p2 == align_down_p2(boundary_p2)` at entry; all call sites pass the
literal powers of two 4096, 512 and 256. -/
def align_up (number boundary_p2 : Nat) : Nat :=
  pyAndNot (number + (boundary_p2 - 1)) (boundary_p2 - 1)

/-! ## Data model: the view of a parsed PE file that `pehashng` reads

These mirror the `pefile.PE` attributes the function accesses; field names
keep the source's (pefile's) names. -/

structure FileHeaderT where
  Characteristics : Nat
deriving DecidableEq

structure DataDirEntryT where
  VirtualAddress : Nat
deriving DecidableEq

structure OptionalHeaderT where
  Subsystem : Nat
  SectionAlignment : Nat
  FileAlignment : Nat
  SizeOfStackCommit : Nat
  SizeOfHeapCommit : Nat
  NumberOfRvaAndSizes : Nat
  DATA_DIRECTORY : List DataDirEntryT
deriving DecidableEq

/-- One entry of `exe.sections`; `rawData` is the byte string returned by
`section.get_data()`. -/
structure SectionT where
  VirtualAddress : Nat
  SizeOfRawData : Nat
  Characteristics : Nat
  rawData : List Nat
deriving DecidableEq

/-- The parsed PE view (`exe`), as produced by `pefile.PE`; `exe.sections` is
sorted by virtual address by pefile. -/
structure PEView where
  FILE_HEADER : FileHeaderT
  OPTIONAL_HEADER : OptionalHeaderT
  sections : List SectionT
deriving DecidableEq

/-! ## The pipeline (`pehashng`) -/

/-- The directory-status loop: for `idx in range(min(NumberOfRvaAndSizes, 16))`,
set bit `idx` when `DATA_DIRECTORY[idx].VirtualAddress` is truthy (non-zero).
List indexing uses `getD` with a zero-address default (pefile always supplies
`min(NumberOfRvaAndSizes, 16)` entries, so the default is never consulted on
real inputs). -/
def dirs_status (exe : PEView) : Nat :=
  (List.range (min exe.OPTIONAL_HEADER.NumberOfRvaAndSizes 16)).foldl
    (fun acc idx =>
      if (exe.OPTIONAL_HEADER.DATA_DIRECTORY.getD idx ⟨0⟩).VirtualAddress ≠ 0
      then acc ||| (1 <<< idx) else acc) 0

/-- The per-section complexity value: 0 when `SizeOfRawData` is 0, otherwise
`len(bz2.compress(section.get_data())) * 7.0 / SizeOfRawData`, clipped to 8
above 7 and rounded with Python 2's `round` otherwise.  `compressLen` stands
for `len ∘ bz2.compress`. -/
def complexity (compressLen : List Nat → Nat) (s : SectionT) : Nat :=
  if s.SizeOfRawData ≠ 0 then
    let ratio : ℚ := (compressLen s.rawData : ℚ) * 7 / (s.SizeOfRawData : ℚ)
    if ratio > 7 then 8 else (round ratio).toNat
  else 0

/-- The byte string the `data` list of `pehashng` concatenates to
(`"".join(data)`), in the exact order the source appends. -/
def pehashng_data (compressLen : List Nat → Nat) (exe : PEView) : List Nat :=
  packBE 2 exe.FILE_HEADER.Characteristics ++
  packBE 2 exe.OPTIONAL_HEADER.Subsystem ++
  packBE 4 (align_down_p2 exe.OPTIONAL_HEADER.SectionAlignment) ++
  packBE 4 (align_down_p2 exe.OPTIONAL_HEADER.FileAlignment) ++
  packBE 8 (align_up exe.OPTIONAL_HEADER.SizeOfStackCommit 4096) ++
  packBE 8 (align_up exe.OPTIONAL_HEADER.SizeOfHeapCommit 4096) ++
  packBE 2 (dirs_status exe &&& 0b0111111001111111) ++
  (exe.sections.map (fun s =>
    packBE 4 (align_up s.VirtualAddress 512) ++
    packBE 4 (align_up s.SizeOfRawData 256) ++
    packBE 1 (s.Characteristics >>> 24) ++
    packBE 1 (complexity compressLen s))).flatten

/-- `pehashng` on an already-parsed PE view:
`sha256("".join(data)).hexdigest()`. -/
def pehashng (compressLen : List Nat → Nat) (exe : PEView) : String :=
  sha256hex (pehashng_data compressLen exe)

/-- The argument of the top-level `pehashng(pe_file)`: either an
already-constructed `pefile.PE` instance, or a file name, in which case
`parseResult` models the outcome of `PE(pe_file, fast_load=True)` —
`none` when pefile raises `PEFormatError`. -/
inductive PEInput where
  | filePath (parseResult : Option PEView)
  | peInstance (exe : PEView)

/-- The top-level `pehashng(pe_file)` with its effect on the PE object made
explicit: returns the optional hex digest (`None` on `PEFormatError`) paired
with whether `exe.close()` was invoked on the PE object before returning. -/
def pehashng_run (compressLen : List Nat → Nat) : PEInput → Option String × Bool
  | .filePath none => (none, false)
  | .filePath (some exe) => (some (pehashng compressLen exe), true)
  | .peInstance exe => (some (pehashng compressLen exe), false)

/-! ## Spec-side definitions

These follow the specification's words, to be compared with the definitions
extracted from the source. -/

/-- Spec-side fixed-width big-endian serialization, written independently of
`packBE`: `w` bytes, most significant first. -/
def beBytes : Nat → Nat → List Nat
  | 0, _ => []
  | w + 1, v => beBytes w (v / 256) ++ [v % 256]

/-- Spec-side header bytes, following the claim's wording: characteristics as
16-bit BE, subsystem as 16-bit BE, `align_down_p2(sectionAlignment)` as 32-bit
BE, `align_down_p2(fileAlignment)` as 32-bit BE,
`align_up(sizeOfStackCommit, 4096)` as 64-bit BE,
`align_up(sizeOfHeapCommit, 4096)` as 64-bit BE, the masked 16-bit directory
bitmap. -/
def spec_header_bytes (exe : PEView) : List Nat :=
  beBytes 2 exe.FILE_HEADER.Characteristics ++
  beBytes 2 exe.OPTIONAL_HEADER.Subsystem ++
  beBytes 4 (align_down_p2 exe.OPTIONAL_HEADER.SectionAlignment) ++
  beBytes 4 (align_down_p2 exe.OPTIONAL_HEADER.FileAlignment) ++
  beBytes 8 (align_up exe.OPTIONAL_HEADER.SizeOfStackCommit 4096) ++
  beBytes 8 (align_up exe.OPTIONAL_HEADER.SizeOfHeapCommit 4096) ++
  beBytes 2 (dirs_status exe &&& 0b0111111001111111)

/-- Spec-side per-section bytes: `align_up(virtualAddress, 512)` as 32-bit BE,
`align_up(sizeOfRawData, 256)` as 32-bit BE, `characteristics >> 24` as 8-bit,
the complexity value as 8-bit. -/
def spec_section_bytes (compressLen : List Nat → Nat) (s : SectionT) : List Nat :=
  beBytes 4 (align_up s.VirtualAddress 512) ++
  beBytes 4 (align_up s.SizeOfRawData 256) ++
  beBytes 1 (s.Characteristics >>> 24) ++
  beBytes 1 (complexity compressLen s)

/-- Spec-side fingerprint byte string: header bytes, then each section's bytes
in input order, with no separators. -/
def spec_fingerprint_bytes (compressLen : List Nat → Nat) (exe : PEView) : List Nat :=
  spec_header_bytes exe ++
    (exe.sections.map (spec_section_bytes compressLen)).flatten

/-- Spec-side rounding: round to nearest, ties away from zero (Python 2's
`round`). -/
def roundHalfAwayFromZero (q : ℚ) : ℤ :=
  if 0 ≤ q then ⌊q + 1 / 2⌋ else ⌈q - 1 / 2⌉

/-! ## Helper lemmas -/

theorem packBE_eq_beBytes (w : Nat) : ∀ v : Nat, packBE w v = beBytes w v := by
  induction w with
  | zero => intro v; rfl
  | succ w ih =>
    intro v
    have h1 : List.range (w + 1) = 0 :: (List.range w).map Nat.succ :=
      List.range_succ_eq_map w
    rw [beBytes, ← ih (v / 256)]
    simp only [packBE, h1, List.reverse_cons, List.map_append, List.map_map,
      List.map_reverse]
    congr 1
    congr 1
    apply List.map_congr_left
    intro i _
    simp only [Function.comp_apply, Nat.shiftRight_eq_div_pow]
    rw [Nat.div_div_eq_div_mul]
    congr 1
    rw [Nat.succ_eq_add_one, Nat.mul_add, Nat.mul_one, Nat.pow_add]
    ring_nf

theorem align_up_eq_mul_div (n b : Nat) (k : Nat) (hb : b = 2 ^ k) :
    align_up n b = b * ((n + (b - 1)) / b) := by
  have hb1 : 1 ≤ b := by
    subst hb; exact Nat.one_le_two_pow
  have hand : (n + (b - 1)) &&& (b - 1) = (n + (b - 1)) % b := by
    subst hb; exact Nat.and_pow_two_sub_one_eq_mod (n + (2 ^ k - 1)) k
  have hdm := Nat.div_add_mod (n + (b - 1)) b
  simp only [align_up, pyAndNot, hand]
  omega

/-! ## Concrete example inputs (used by witnesses) -/

/-- A section mirroring the spec's end-to-end scenario: VA 0x1000, raw size
512, characteristics 0x60000020, 512 zero bytes of content. -/
def exampleSection : SectionT := ⟨0x1000, 512, 0x60000020, List.replicate 512 0⟩

/-- A PE view mirroring the spec's end-to-end scenario (zero directory
entries). -/
def examplePE : PEView :=
  ⟨⟨0x0102⟩, ⟨2, 0x1000, 0x200, 0x1000, 0x100000, 0, []⟩, [exampleSection]⟩

/-- Eight directory entries; index 7 has a non-zero virtual address. -/
def exampleDirsA : List DataDirEntryT :=
  [⟨0x1000⟩, ⟨0⟩, ⟨0x2000⟩, ⟨0⟩, ⟨0⟩, ⟨0⟩, ⟨0⟩, ⟨0x3000⟩]

/-- Same as `exampleDirsA` except index 7 has virtual address 0. -/
def exampleDirsB : List DataDirEntryT :=
  [⟨0x1000⟩, ⟨0⟩, ⟨0x2000⟩, ⟨0⟩, ⟨0⟩, ⟨0⟩, ⟨0⟩, ⟨0⟩]

/-- A stand-in for `len ∘ bz2.compress` used in witnesses. -/
def constCompressLen : List Nat → Nat := fun _ => 1

/-- A tiny section with raw size 2, used in the complexity witnesses. -/
def exampleTinySection : SectionT := ⟨0, 2, 0, [1, 2]⟩

/-- A section with raw size 0, used in the complexity-zero witness. -/
def exampleEmptySection : SectionT := ⟨0, 0, 0, []⟩

/-! ## Helper lemmas -/

theorem orloop_testBit (p : Nat → Prop) [DecidablePred p] :
    ∀ m acc i : Nat,
      ((List.range m).foldl
        (fun acc idx => if p idx then acc ||| (1 <<< idx) else acc) acc).testBit i
      = (acc.testBit i || (decide (i < m) && decide (p i))) := by
  intro m
  induction m with
  | zero => intro acc i; simp
  | succ m ih =>
    intro acc i
    rw [List.range_succ, List.foldl_append]
    simp only [List.foldl_cons, List.foldl_nil]
    have hshift : (1 <<< m : Nat) = 2 ^ m := by
      rw [Nat.shiftLeft_eq, Nat.one_mul]
    by_cases hpm : p m
    · rw [if_pos hpm, Nat.testBit_or, ih, hshift, Nat.testBit_two_pow]
      by_cases him : i = m
      · subst him; simp [hpm]
      · have h1 : decide (m = i) = false := by
          simp
          omega
        have h2 : decide (i < m + 1) = decide (i < m) :=
          decide_eq_decide.mpr (by omega)
        rw [h1, h2, Bool.or_false]
    · rw [if_neg hpm, ih]
      by_cases him : i = m
      · subst him; simp [hpm]
      · have h2 : decide (i < m + 1) = decide (i < m) :=
          decide_eq_decide.mpr (by omega)
        rw [h2]

theorem dirs_status_testBit (exe : PEView) (i : Nat) :
    (dirs_status exe).testBit i =
      (decide (i < min exe.OPTIONAL_HEADER.NumberOfRvaAndSizes 16) &&
       decide ((exe.OPTIONAL_HEADER.DATA_DIRECTORY.getD i ⟨0⟩).VirtualAddress ≠ 0)) := by
  unfold dirs_status
  rw [orloop_testBit
    (fun idx => (exe.OPTIONAL_HEADER.DATA_DIRECTORY.getD idx ⟨0⟩).VirtualAddress ≠ 0)]
  simp

theorem masked_dirs_testBit (exe : PEView) (i : Nat) :
    (dirs_status exe &&& 0b0111111001111111).testBit i =
      (decide (i < min exe.OPTIONAL_HEADER.NumberOfRvaAndSizes 16) &&
       decide ((exe.OPTIONAL_HEADER.DATA_DIRECTORY.getD i ⟨0⟩).VirtualAddress ≠ 0) &&
       Nat.testBit 0b0111111001111111 i) := by
  rw [Nat.testBit_and, dirs_status_testBit]

/-! ## Claim theorems -/

/-- C5: for every unsigned `n` and every boundary `b` that is an exact power of
two, `align_up n b` is the smallest multiple of `b` that is `≥ n`; equivalently
it is a multiple of `b` with `align_up n b - b < n ≤ align_up n b` (the left
inequality read over the integers). -/
theorem align_up_smallest_multiple (n b : Nat) (hpow : ∃ k : Nat, b = 2 ^ k) :
    b ∣ align_up n b ∧ n ≤ align_up n b ∧
      ((align_up n b : ℤ) - (b : ℤ) < (n : ℤ)) ∧
      ∀ m : Nat, b ∣ m → n ≤ m → align_up n b ≤ m := by
  obtain ⟨k, hk⟩ := hpow
  have hb1 : 1 ≤ b := hk ▸ Nat.one_le_two_pow
  have heq := align_up_eq_mul_div n b k hk
  have hdm := Nat.div_add_mod (n + (b - 1)) b
  have hmod : (n + (b - 1)) % b < b := Nat.mod_lt _ (by omega)
  have hmin : ∀ m : Nat, b ∣ m → n ≤ m → b * ((n + (b - 1)) / b) ≤ m := by
    rintro m ⟨t, rfl⟩ hnm
    rcases le_or_lt ((n + (b - 1)) / b) t with h | h
    · exact Nat.mul_le_mul_left b h
    · exfalso
      have h1 : t + 1 ≤ (n + (b - 1)) / b := h
      have h2 : b * (t + 1) ≤ b * ((n + (b - 1)) / b) := Nat.mul_le_mul_left b h1
      rw [Nat.mul_add, Nat.mul_one] at h2
      omega
  rw [heq]
  refine ⟨⟨(n + (b - 1)) / b, rfl⟩, by omega, ?_, hmin⟩
  have hlt : b * ((n + (b - 1)) / b) < n + b := by omega
  omega

/-- C5 witness: instantiated at `n = 5`, `b = 512 = 2 ^ 9`. -/
theorem align_up_smallest_multiple_witness :
    (∃ k : Nat, 512 = 2 ^ k) ∧
      (512 ∣ align_up 5 512 ∧ 5 ≤ align_up 5 512 ∧
        ((align_up 5 512 : ℤ) - (512 : ℤ) < (5 : ℤ)) ∧
        ∀ m : Nat, 512 ∣ m → 5 ≤ m → align_up 5 512 ≤ m) :=
  ⟨⟨9, by norm_num⟩, align_up_smallest_multiple 5 512 ⟨9, by norm_num⟩⟩

/-- C6: `align_down_p2 0 = 0`, and for every `n > 0`, `align_down_p2 n` equals
`2 ^ ⌊log2 n⌋`, which is the largest power of two `≤ n` (it is `≤ n` and every
power of two `≤ n` is `≤` it).  The Lean embedding is a total function with no
error path, matching the code. -/
theorem align_down_p2_spec :
    align_down_p2 0 = 0 ∧ ∀ n : Nat, n ≠ 0 →
      align_down_p2 n = 2 ^ Nat.log2 n ∧ align_down_p2 n ≤ n ∧
      ∀ j : Nat, 2 ^ j ≤ n → 2 ^ j ≤ align_down_p2 n := by
  refine ⟨rfl, fun n hn => ?_⟩
  have h2 : align_down_p2 n = 2 ^ Nat.log2 n := by
    simp only [align_down_p2, bit_length, hn, if_neg hn, ne_eq,
      not_false_eq_true, if_true, if_false, Nat.add_sub_cancel]
    rw [Nat.shiftLeft_eq, Nat.one_mul]
  refine ⟨h2, ?_, ?_⟩
  · rw [h2]; exact Nat.log2_self_le hn
  · intro j hj
    rw [h2]
    apply Nat.pow_le_pow_right (by norm_num)
    rw [Nat.log2_eq_log_two]
    exact (Nat.pow_le_iff_le_log (by norm_num) hn).mp hj

/-- C6 witness: instantiated at `n = 5` (where the value is `4 = 2 ^ 2`). -/
theorem align_down_p2_spec_witness :
    (5 : Nat) ≠ 0 ∧
      (align_down_p2 5 = 2 ^ Nat.log2 5 ∧ align_down_p2 5 ≤ 5 ∧
        ∀ j : Nat, 2 ^ j ≤ 5 → 2 ^ j ≤ align_down_p2 5) :=
  ⟨by norm_num, align_down_p2_spec.2 5 (by norm_num)⟩

/-- C2: the serialized 16-bit directory bitmap has bit `i` set exactly when
`i < min(NumberOfRvaAndSizes, 16)`, the directory entry at `i` has a non-zero
virtual address, and `i` survives the fixed mask `0b0111111001111111`;
consequently bits 7, 8 and 15 are always 0, indices at or beyond 16 never
contribute, and when `NumberOfRvaAndSizes = 0` the bitmap is 0. -/
theorem masked_dirs_status_spec (exe : PEView) :
    (∀ i : Nat, (dirs_status exe &&& 0b0111111001111111).testBit i =
      (decide (i < min exe.OPTIONAL_HEADER.NumberOfRvaAndSizes 16) &&
       decide ((exe.OPTIONAL_HEADER.DATA_DIRECTORY.getD i ⟨0⟩).VirtualAddress ≠ 0) &&
       Nat.testBit 0b0111111001111111 i)) ∧
    (dirs_status exe &&& 0b0111111001111111).testBit 7 = false ∧
    (dirs_status exe &&& 0b0111111001111111).testBit 8 = false ∧
    (dirs_status exe &&& 0b0111111001111111).testBit 15 = false ∧
    (∀ i : Nat, 16 ≤ i → (dirs_status exe &&& 0b0111111001111111).testBit i = false) ∧
    (exe.OPTIONAL_HEADER.NumberOfRvaAndSizes = 0 →
      dirs_status exe &&& 0b0111111001111111 = 0) := by
  refine ⟨masked_dirs_testBit exe, ?_, ?_, ?_, ?_, ?_⟩
  · rw [masked_dirs_testBit]
    have h7 : Nat.testBit 0b0111111001111111 7 = false := by decide
    rw [h7, Bool.and_false]
  · rw [masked_dirs_testBit]
    have h8 : Nat.testBit 0b0111111001111111 8 = false := by decide
    rw [h8, Bool.and_false]
  · rw [masked_dirs_testBit]
    have h15 : Nat.testBit 0b0111111001111111 15 = false := by decide
    rw [h15, Bool.and_false]
  · intro i hi
    rw [masked_dirs_testBit]
    have hlt : ¬(i < min exe.OPTIONAL_HEADER.NumberOfRvaAndSizes 16) := by omega
    simp [hlt]
  · intro h0
    unfold dirs_status
    rw [h0]
    simp

/-- C2 witness: at the concrete `examplePE` (zero directory entries) the
bitmap is 0, and bit 16 is clear. -/
theorem masked_dirs_status_spec_witness :
    (dirs_status examplePE &&& 0b0111111001111111 = 0) ∧
    (dirs_status examplePE &&& 0b0111111001111111).testBit 16 = false :=
  ⟨(masked_dirs_status_spec examplePE).2.2.2.2.2 rfl,
   (masked_dirs_status_spec examplePE).2.2.2.2.1 16 (by norm_num)⟩

/-- C7: two runs on inputs that agree everywhere except possibly in the
virtual-address flags of directory entries 7, 8 and 15 produce the same
digest. -/
theorem pehashng_mask_insensitive
    (compressLen : List Nat → Nat) (fh : FileHeaderT)
    (sub sa fa ssc shc nrs : Nat) (dd dd' : List DataDirEntryT)
    (secs : List SectionT)
    (hagree : ∀ i : Nat, i < 16 → i ≠ 7 → i ≠ 8 → i ≠ 15 →
      ((dd.getD i ⟨0⟩).VirtualAddress ≠ 0 ↔ (dd'.getD i ⟨0⟩).VirtualAddress ≠ 0)) :
    pehashng compressLen ⟨fh, ⟨sub, sa, fa, ssc, shc, nrs, dd⟩, secs⟩ =
      pehashng compressLen ⟨fh, ⟨sub, sa, fa, ssc, shc, nrs, dd'⟩, secs⟩ := by
  have hmaskbit : ∀ i : Nat, Nat.testBit 0b0111111001111111 i = true →
      i < 16 ∧ i ≠ 7 ∧ i ≠ 8 ∧ i ≠ 15 := by
    intro i hi
    have hlt : i < 16 := by
      by_contra hge
      have hsmall : (0b0111111001111111 : Nat) < 2 ^ i := by
        calc (0b0111111001111111 : Nat) < 2 ^ 16 := by norm_num
        _ ≤ 2 ^ i := Nat.pow_le_pow_right (by norm_num) (by omega)
      rw [Nat.testBit_lt_two_pow hsmall] at hi
      exact Bool.false_ne_true hi
    refine ⟨hlt, ?_, ?_, ?_⟩ <;> rintro rfl <;> revert hi <;> decide
  have hds : dirs_status ⟨fh, ⟨sub, sa, fa, ssc, shc, nrs, dd⟩, secs⟩ &&&
        0b0111111001111111 =
      dirs_status ⟨fh, ⟨sub, sa, fa, ssc, shc, nrs, dd'⟩, secs⟩ &&&
        0b0111111001111111 := by
    apply Nat.eq_of_testBit_eq
    intro i
    rw [masked_dirs_testBit, masked_dirs_testBit]
    by_cases hm : Nat.testBit 0b0111111001111111 i = true
    · obtain ⟨h16, h7, h8, h15⟩ := hmaskbit i hm
      have hiff := hagree i h16 h7 h8 h15
      rw [hm, Bool.and_true, Bool.and_true]
      congr 1
      exact decide_eq_decide.mpr hiff
    · rw [Bool.not_eq_true] at hm
      rw [hm, Bool.and_false, Bool.and_false]
  simp only [pehashng, pehashng_data]
  rw [hds]

/-- C7 witness: flipping the virtual-address flag of directory entry 7 leaves
the digest unchanged. -/
theorem pehashng_mask_insensitive_witness :
    pehashng constCompressLen
        ⟨⟨0x0102⟩, ⟨2, 0x1000, 0x200, 0x1000, 0x100000, 8, exampleDirsA⟩,
          [exampleSection]⟩ =
      pehashng constCompressLen
        ⟨⟨0x0102⟩, ⟨2, 0x1000, 0x200, 0x1000, 0x100000, 8, exampleDirsB⟩,
          [exampleSection]⟩ :=
  pehashng_mask_insensitive constCompressLen ⟨0x0102⟩ 2 0x1000 0x200 0x1000
    0x100000 8 exampleDirsA exampleDirsB [exampleSection] (by decide)

/-- C1: for every successfully parsed input, `pehashng` returns the lowercase
hexadecimal SHA-256 digest of the byte string described by the spec:
header fields in the spec's order, then per-section fields in input order,
all fixed-width big-endian, with no separators
(`spec_fingerprint_bytes`). -/
theorem pehashng_eq_spec_digest (compressLen : List Nat → Nat) (exe : PEView) :
    pehashng compressLen exe = sha256hex (spec_fingerprint_bytes compressLen exe) := by
  unfold pehashng pehashng_data spec_fingerprint_bytes spec_header_bytes
    spec_section_bytes
  simp only [packBE_eq_beBytes, List.append_assoc]

/-- C3: for a section with `SizeOfRawData > 0`, the complexity value is 8 when
`compressedLength * 7 / rawSize > 7`, and otherwise that ratio rounded to the
nearest integer with ties away from zero. -/
theorem complexity_ratio_spec (compressLen : List Nat → Nat) (s : SectionT)
    (hpos : 0 < s.SizeOfRawData) :
    (complexity compressLen s : ℤ) =
      if ((compressLen s.rawData : ℚ) * 7 / (s.SizeOfRawData : ℚ)) > 7 then 8
      else roundHalfAwayFromZero
        ((compressLen s.rawData : ℚ) * 7 / (s.SizeOfRawData : ℚ)) := by
  have hne : s.SizeOfRawData ≠ 0 := by omega
  have hnn : 0 ≤ (compressLen s.rawData : ℚ) * 7 / (s.SizeOfRawData : ℚ) := by
    positivity
  unfold complexity roundHalfAwayFromZero
  rw [if_pos hne, if_pos hnn]
  by_cases h7 : ((compressLen s.rawData : ℚ) * 7 / (s.SizeOfRawData : ℚ)) > 7
  · rw [if_pos h7, if_pos h7]
    norm_num
  · rw [if_neg h7, if_neg h7]
    have hrnn : 0 ≤ round ((compressLen s.rawData : ℚ) * 7 / (s.SizeOfRawData : ℚ)) := by
      rw [round_eq]
      apply Int.floor_nonneg.mpr
      linarith
    rw [round_eq, Int.toNat_of_nonneg (by rw [round_eq] at hrnn; exact hrnn)]

/-- C3 witness: a two-byte section whose compressed length is 1 gives ratio
7/2 and complexity 4. -/
theorem complexity_ratio_spec_witness :
    0 < exampleTinySection.SizeOfRawData ∧
      (complexity constCompressLen exampleTinySection : ℤ) =
        if ((constCompressLen exampleTinySection.rawData : ℚ) * 7 /
              (exampleTinySection.SizeOfRawData : ℚ)) > 7 then 8
        else roundHalfAwayFromZero
          ((constCompressLen exampleTinySection.rawData : ℚ) * 7 /
            (exampleTinySection.SizeOfRawData : ℚ)) :=
  ⟨by norm_num [exampleTinySection],
   complexity_ratio_spec constCompressLen exampleTinySection
     (by norm_num [exampleTinySection])⟩

/-- C4: the complexity value is always an integer in `[0, 8]`, and it is
exactly 0 when the section's `SizeOfRawData` is 0 (in which case the
compressor is never consulted: the value is 0 for every `compressLen`). -/
theorem complexity_bounds (compressLen : List Nat → Nat) (s : SectionT) :
    0 ≤ complexity compressLen s ∧ complexity compressLen s ≤ 8 ∧
      (s.SizeOfRawData = 0 → complexity compressLen s = 0) := by
  refine ⟨Nat.zero_le _, ?_, ?_⟩
  · unfold complexity
    by_cases hne : s.SizeOfRawData ≠ 0
    · rw [if_pos hne]
      by_cases h7 : ((compressLen s.rawData : ℚ) * 7 / (s.SizeOfRawData : ℚ)) > 7
      · rw [if_pos h7]
      · rw [if_neg h7]
        have h1 : ((compressLen s.rawData : ℚ) * 7 / (s.SizeOfRawData : ℚ)) ≤ 7 :=
          le_of_not_lt h7
        have hle : round ((compressLen s.rawData : ℚ) * 7 / (s.SizeOfRawData : ℚ)) ≤ 7 := by
          rw [round_eq]
          have h2 : (⌊((compressLen s.rawData : ℚ) * 7 / (s.SizeOfRawData : ℚ)) + 1 / 2⌋ : ℤ) ≤
              ⌊(7 : ℚ) + 1 / 2⌋ := Int.floor_le_floor (by linarith)
          have h3 : (⌊(7 : ℚ) + 1 / 2⌋ : ℤ) = 7 := by norm_num
          omega
        omega
    · rw [if_neg hne]
      omega
  · intro h0
    unfold complexity
    simp [h0]

/-- C4 witness: a section with `SizeOfRawData = 0` has complexity 0. -/
theorem complexity_bounds_witness :
    exampleEmptySection.SizeOfRawData = 0 ∧
      complexity constCompressLen exampleEmptySection = 0 :=
  ⟨rfl, (complexity_bounds constCompressLen exampleEmptySection).2.2 rfl⟩

/-- C8: when the PE reader raises `PEFormatError` (parse result `none`),
`pehashng` returns no digest; a digest is produced only from a fully parsed
view, in which case it is exactly the structural hash of that view — never a
partial value. -/
theorem pehashng_no_digest_on_parse_failure (compressLen : List Nat → Nat) :
    (pehashng_run compressLen (.filePath none)).1 = none ∧
      ∀ v : PEView, (pehashng_run compressLen (.filePath (some v))).1 =
        some (pehashng compressLen v) :=
  ⟨rfl, fun _ => rfl⟩

/-- C9: the pipeline is a pure function of its input — two computations of the
digest on the same compressor and parsed view give identical output. -/
theorem pehashng_deterministic (c c' : List Nat → Nat) (exe exe' : PEView)
    (hc : c = c') (hexe : exe = exe') :
    pehashng c exe = pehashng c' exe' := by
  subst hc
  subst hexe
  rfl

/-- C9 witness: two runs on the concrete `examplePE` coincide. -/
theorem pehashng_deterministic_witness :
    pehashng constCompressLen examplePE = pehashng constCompressLen examplePE :=
  pehashng_deterministic constCompressLen constCompressLen examplePE examplePE
    rfl rfl

/-- C10: called with a file path whose parse succeeds, the function closes the
PE object it opened before returning; called with an already-constructed PE
instance, it never calls `close` on it (and, the embedding being pure, the
caller's view is not modified).  On parse failure no object exists to close. -/
theorem pehashng_close_frame (compressLen : List Nat → Nat) :
    (∀ v : PEView, (pehashng_run compressLen (.filePath (some v))).2 = true) ∧
      (∀ exe : PEView, (pehashng_run compressLen (.peInstance exe)).2 = false) ∧
      (pehashng_run compressLen (.filePath none)).2 = false :=
  ⟨fun _ => rfl, fun _ => rfl, rfl⟩

/-! ## Validation of the SHA-256 embedding against standard test vectors -/

set_option maxRecDepth 10000 in
theorem sha256hex_empty_vector :
    sha256hex [] =
      "e3b0c44298fc1c149afbf4c8996fb92427ae41e4649b934ca495991b7852b855" := by
  rfl

set_option maxRecDepth 10000 in
theorem sha256hex_abc_vector :
    sha256hex [97, 98, 99] =
      "ba7816bf8f01cfea414140de5dae2223b00361a396177a9cb410ff61f20015ad" := by
  rfl
